import Mathlib

/-!
Verification of the HTML-to-Markdown conversion engine and the search-URL
builder of the ProPro-Productions/go-utils repository.

The repository ships the test suite of the markdown package
(`convert_html_to_markdown_test.go`) but not its implementation file, so the
markdown data model and operations below are modelled from the specification
(each such definition carries a doc comment starting `Modelled from the
spec:`).  The search component (`search/search_website.go`) and the extraction
helper (`TraverseAndExtract`) are present in the sources and are translated
directly.
-/

namespace GoUtils

/-- Modelled from the spec: the `kind` variant of a DOM-like node
(Document, Element, Text, Comment) — spec section 3, mirroring
`golang.org/x/net/html.NodeType` as used by the tests. -/
inductive NodeType where
  | document
  | element
  | text
  | comment
deriving DecidableEq, Repr

/-- Modelled from the spec: one HTML tree node (spec section 3).  `data` is
the tag name for elements and the character data for text nodes (as in
`html.Node.Data`); `attrList` is the ordered attribute list (key/value
pairs, keys unique); `children` is the ordered child sequence.  The parent
back-reference, used only by `isChildOf`, is modelled separately by
`PNode`. -/
inductive HNode where
  | mk (type : NodeType) (data : String) (attrList : List (String × String))
      (children : List HNode)

/-- Projection: the node kind. -/
def HNode.type : HNode → NodeType
  | .mk t _ _ _ => t

/-- Projection: tag name (elements) or character data (text nodes). -/
def HNode.data : HNode → String
  | .mk _ d _ _ => d

/-- Projection: the attribute list. -/
def HNode.attrList : HNode → List (String × String)
  | .mk _ _ a _ => a

/-- Projection: the ordered children. -/
def HNode.children : HNode → List HNode
  | .mk _ _ _ c => c

/-- Modelled from the spec: `attr(node, name)` returns the attribute value
or the empty string when the attribute is absent or the node has no
attributes; it never fails (spec section 4.1, exercised by `TestAttr`). -/
def attr (node : HNode) (name : String) : String :=
  match node.attrList.find? (fun a => a.fst = name) with
  | some a => a.snd
  | none => ""

/-- Helper for whitespace-splitting: accumulates the current token
(reversed) and cuts a token at every whitespace run, like Go's
`strings.Fields`. -/
def wsFieldsAux : List Char → List Char → List String
  | [], acc => if acc.isEmpty then [] else [String.mk acc.reverse]
  | c :: cs, acc =>
    if c.isWhitespace then
      (if acc.isEmpty then [] else [String.mk acc.reverse]) ++ wsFieldsAux cs []
    else
      wsFieldsAux cs (c :: acc)

/-- Splits a string into its whitespace-separated tokens; arbitrary runs of
whitespace separate tokens and produce no empty tokens. -/
def wsFields (s : String) : List String :=
  wsFieldsAux s.data []

/-- Modelled from the spec: `has_class(node, name)` is true iff `name`
appears as a whitespace-separated token of the node's "class" attribute,
splitting on arbitrary runs of whitespace (spec section 4.1, exercised by
`TestHasClass`). -/
def hasClass (node : HNode) (name : String) : Bool :=
  (wsFields (attr node "class")).contains name

/-- Modelled from the spec: a node viewed through its parent back-reference
chain, as constructed in `TestIsChildOf` (`html.Node` values linked by
`Parent` only).  A `root` node has a nil `Parent` pointer; a `child` node
points at its parent. -/
inductive PNode where
  | root (tag : String)
  | child (tag : String) (parent : PNode)

/-- Projection: the tag name. -/
def PNode.tag : PNode → String
  | .root t => t
  | .child t _ => t

/-- Projection: the parent back-reference (none for a root, i.e. a nil Go
pointer). -/
def PNode.parent : PNode → Option PNode
  | .root _ => none
  | .child _ p => some p

/-- Walks a parent chain upward, starting at the given node itself, and
reports whether any node on it carries the given tag. -/
def chainHasTag : PNode → String → Bool
  | .root tag, t => tag = t
  | .child tag p, t => tag = t || chainHasTag p t

/-- Modelled from the spec: `is_child_of(node, ancestor_tag)` walks the
parent chain starting at the node's parent upward and returns true iff some
ancestor's tag equals `ancestor_tag`; it returns false for a nil/absent
node, and the node's own tag never counts (spec section 4.1, exercised by
`TestIsChildOf`).  A nil Go pointer is `none`. -/
def isChildOf : Option PNode → String → Bool
  | none, _ => false
  | some (.root _), _ => false
  | some (.child _ p), t => chainHasTag p t

/-- The list of ancestors of a node, parent first, following the parent
chain upward; the node itself is not included. -/
def parentChain : PNode → List PNode
  | .root _ => []
  | .child _ p => p :: parentChain p

/-- Matches one class token against the pattern `language-X`: returns the
suffix `X` when the token starts with "language-", none otherwise. -/
def langTokenSuffix (tok : String) : Option String :=
  if List.isPrefixOf "language-".data tok.data then
    some (String.mk (tok.data.drop 9))
  else
    none

/-- Finds the first token of the form `language-X` in a token list and
returns its suffix `X`; non-matching tokens are skipped. -/
def firstLangToken : List String → Option String
  | [] => none
  | tok :: toks =>
    match langTokenSuffix tok with
    | some l => some l
    | none => firstLangToken toks

/-- Modelled from the spec: `lang_from_class(pre_node)` reads the "class"
attribute of the pre node itself and of its first child element with tag
"code", and returns the suffix of the first `language-X` token found
(checking the pre node's own tokens first, then the code child's); it
returns the empty string when no token matches (spec section 4.1, exercised
by `TestLangFromClass`). -/
def langFromClass (preNode : HNode) : String :=
  let ownToks := wsFields (attr preNode "class")
  match firstLangToken ownToks with
  | some l => l
  | none =>
    match preNode.children.find? (fun c =>
        c.type = NodeType.element && c.data = "code") with
    | some codeNode =>
      match firstLangToken (wsFields (attr codeNode "class")) with
      | some l => l
      | none => ""
    | none => ""

/-- Modelled from the spec: conversion configuration (Go type `Option` of
the markdown package, named `MdOption` here because `Option` is taken by
the core library): `TrimSpace` plus the custom-rule map `customRulesMap`.
A custom rule (Go `WalkFunc`) receives the node, the nesting depth, and a
thunk standing for re-entering the default walker on the same node — per the
spec, such a re-entry renders the node's children with default rules and
does not re-invoke the custom rule. -/
structure MdOption where
  TrimSpace : Bool
  customRulesMap : String → Option (HNode → Nat → (Unit → String) → String)

/-- Escapes one character for Markdown: the reserved characters
`*_[]()#` and backslash are preceded by a backslash. -/
def mdEscapeChar (c : Char) : String :=
  if c ∈ ['*', '_', '[', ']', '(', ')', '#', '\\'] then
    "\\" ++ String.singleton c
  else
    String.singleton c

/-- Modelled from the spec: Markdown-escaping of the reserved characters in
a text node (spec section 4.3, Text dispatch). -/
def escapeMarkdown (s : String) : String :=
  String.join (s.data.map mdEscapeChar)

/-- Helper: collapses runs of whitespace to a single space; the boolean
records whether the previous character was whitespace. -/
def collapseWsAux : List Char → Bool → List Char
  | [], _ => []
  | c :: cs, prevWs =>
    if c.isWhitespace then
      if prevWs then collapseWsAux cs true else ' ' :: collapseWsAux cs true
    else
      c :: collapseWsAux cs false

/-- Modelled from the spec: whitespace normalization applied to text when
`trim_space` is set — runs of whitespace collapse to a single space (spec
section 4.3, Text dispatch). -/
def collapseWs (s : String) : String :=
  String.mk (collapseWsAux s.data false)

/-- Prefixes every line of a string with the given prefix string. -/
def prefixLines (p s : String) : String :=
  String.intercalate "\n" ((s.splitOn "\n").map (fun l => p ++ l))

/-- Reports whether the node's attribute list contains the given key at
all (as opposed to `attr`, which cannot distinguish an absent key from an
empty value). -/
def hasAttrKey (node : HNode) (name : String) : Bool :=
  (node.attrList.find? (fun a => a.fst = name)).isSome

/-- Modelled from the spec: the image target of an `img` element — the
"src" attribute when present, else the "data-src" attribute (lazy-loaded
images), else the empty string (spec section 4.3, img row and its
edge-case policy). -/
def imgTarget (node : HNode) : String :=
  if hasAttrKey node "src" then attr node "src" else attr node "data-src"

/-- Indentation for a list item: two spaces per nesting level. -/
def listIndent (nest : Nat) : String :=
  String.mk (List.replicate (2 * nest) ' ')

mutual

/-- Raw text content of a subtree: the concatenation of all text-node data
in document order, comments excluded. -/
def textContent : HNode → String
  | .mk t d _ cs =>
    match t with
    | .text => d
    | .comment => ""
    | _ => textContentList cs

/-- Raw text content of a sequence of subtrees, concatenated in order. -/
def textContentList : List HNode → String
  | [] => ""
  | c :: rest => textContent c ++ textContentList rest

end

/-- Is this child node a `th` or `td` cell element? -/
def isCellNode (c : HNode) : Bool :=
  c.type = NodeType.element && (c.data = "th" || c.data = "td")

/-- Is this child node a `tr` row element? -/
def isTrNode (c : HNode) : Bool :=
  c.type = NodeType.element && c.data = "tr"

/-- Modelled from the spec: one table row — the text cells of the row's
`th`/`td` children, pipe-joined per Markdown table syntax (spec section
4.3, table row). -/
def renderTableRow (tr : HNode) : String :=
  String.intercalate " | " ((tr.children.filter isCellNode).map textContent)

/-- Modelled from the spec: the lines emitted for a `table` element — one
line per `tr` row, with the header-separator row `---` emitted after the
first row (spec section 4.3, table row). -/
def tableLines (node : HNode) : List String :=
  match node.children.filter isTrNode with
  | [] => []
  | r :: rest => renderTableRow r :: "---" :: rest.map renderTableRow

/-- Header level of a heading tag, 0 when the tag is not `h1`..`h6`. -/
def headerLevel : String → Nat
  | "h1" => 1
  | "h2" => 2
  | "h3" => 3
  | "h4" => 4
  | "h5" => 5
  | "h6" => 6
  | _ => 0

mutual

/-- Modelled from the spec: the recursive walker `walk(node, sink,
nesting_depth, option)` (spec sections 4.2 and 4.3).  The sink is modelled
by the returned string (bytes in document order); `pre` is the
`in_preformatted` flag of the implicit RenderState.  Dispatch: text
(escape unless preformatted, collapse whitespace when `TrimSpace`),
comment (nothing), document (children), element (custom rule if
registered — receiving the default-walker re-entry thunk, which renders
the children with default rules — else built-in rule, else transparent
recursion into children). -/
def walk (node : HNode) (nest : Nat) (pre : Bool) (opt : MdOption) : String :=
  match node with
  | .mk t d _ cs =>
    let renderChildren := fun (_ : Unit) => walkList cs nest pre opt
    match t with
    | .text =>
      if pre then d
      else
        let s := escapeMarkdown d
        if opt.TrimSpace then collapseWs s else s
    | .comment => ""
    | .document => renderChildren ()
    | .element =>
      match opt.customRulesMap d with
      | some rule => rule node nest renderChildren
      | none =>
        if headerLevel d ≠ 0 then
          String.mk (List.replicate (headerLevel d) '#') ++ " " ++
            renderChildren () ++ "\n\n"
        else if d = "p" then
          renderChildren () ++ "\n\n"
        else if d = "strong" || d = "b" then
          "**" ++ renderChildren () ++ "**"
        else if d = "em" || d = "i" then
          "*" ++ renderChildren () ++ "*"
        else if d = "a" then
          if hasAttrKey node "href" then
            "[" ++ renderChildren () ++ "](" ++ attr node "href" ++ ")"
          else
            renderChildren ()
        else if d = "img" then
          "![" ++ attr node "alt" ++ "](" ++ imgTarget node ++ ")"
        else if d = "ul" || d = "ol" then
          walkListItems cs (d = "ol") 0 (nest + 1) pre opt
        else if d = "li" then
          listIndent nest ++ "- " ++ renderChildren () ++ "\n"
        else if d = "blockquote" then
          prefixLines "> " (renderChildren ())
        else if d = "pre" then
          let lang := langFromClass node
          let content := textContentList cs
          if lang.isEmpty then
            prefixLines "    " content
          else
            "```" ++ lang ++ "\n" ++ content ++ "\n```"
        else if d = "table" then
          String.intercalate "\n" (tableLines node) ++ "\n"
        else
          renderChildren ()

/-- Walks a sequence of sibling nodes in document order, concatenating
their output. -/
def walkList (ns : List HNode) (nest : Nat) (pre : Bool) (opt : MdOption) :
    String :=
  match ns with
  | [] => ""
  | c :: rest => walk c nest pre opt ++ walkList rest nest pre opt

/-- Modelled from the spec: the body of a `ul`/`ol` element — each `li`
child is rendered at the incremented nesting depth with its indentation,
its marker (`-` unordered, `<index+1>.` ordered with the index counting
`li` children only), its rendered children, and a terminating newline;
non-`li` children are skipped (spec section 4.3, ul/ol and li rows). -/
def walkListItems (ns : List HNode) (ordered : Bool) (idx : Nat) (nest : Nat)
    (pre : Bool) (opt : MdOption) : String :=
  match ns with
  | [] => ""
  | c :: rest =>
    match c with
    | .mk t d _ gcs =>
      if t = NodeType.element && d = "li" then
        listIndent nest ++
          (if ordered then toString (idx + 1) ++ ". " else "- ") ++
          walkList gcs nest pre opt ++ "\n" ++
          walkListItems rest ordered (idx + 1) nest pre opt
      else
        walkListItems rest ordered idx nest pre opt

end

/-- Modelled from the spec: one top-level conversion call — a nil tree
yields empty output without failure, otherwise the walker runs on the root
with fresh state (depth 0, not preformatted) (spec section 7). -/
def convert (root : Option HNode) (opt : MdOption) : String :=
  match root with
  | none => ""
  | some n => walk n 0 false opt

/-- Translated from `src/unnamed/part_000` (`TraverseAndExtract`, goquery
attribute access): `s.Attr(name)` returns the attribute value and whether
it exists; absent attributes give the empty string with `exists = false`,
modelled as `none`. -/
def selAttr (attrList : List (String × String)) (name : String) :
    Option String :=
  (attrList.find? (fun p => p.fst = name)).map (fun p => p.snd)

/-- Translated from `src/unnamed/part_000` (`TraverseAndExtract`, img
case): `src, exists := s.Attr("src"); if !exists { src, _ =
s.Attr("data-src") }` — the printed image source is the "src" attribute
when the key exists (even with empty value), else the "data-src" value,
else the empty string; the img line is printed unconditionally. -/
def traverseImgSrc (attrList : List (String × String)) : String :=
  match selAttr attrList "src" with
  | some v => v
  | none => (selAttr attrList "data-src").getD ""

/-- Translated from `src/search/search_website.go`: `const stdGoogleBase =
"https://www.google."`. -/
def stdGoogleBase : String := "https://www.google."

/-- Translated from `src/search/search_website.go`: the `GoogleDomains`
map of localized Google homepages, keyed by ISO 3166-1 alpha-2 country
code (keys unique, so association-list lookup models Go map lookup). -/
def GoogleDomains : List (String × String) := [
  ("us", "com/search?q="), ("ac", "ac/search?q="), ("ad", "ad/search?q="),
  ("ae", "ae/search?q="), ("af", "com.af/search?q="), ("ag", "com.ag/search?q="),
  ("ai", "com.ai/search?q="), ("al", "al/search?q="), ("am", "am/search?q="),
  ("ao", "co.ao/search?q="), ("ar", "com.ar/search?q="), ("as", "as/search?q="),
  ("at", "at/search?q="), ("au", "com.au/search?q="), ("az", "az/search?q="),
  ("ba", "ba/search?q="), ("bd", "com.bd/search?q="), ("be", "be/search?q="),
  ("bf", "bf/search?q="), ("bg", "bg/search?q="), ("bh", "com.bh/search?q="),
  ("bi", "bi/search?q="), ("bj", "bj/search?q="), ("bn", "com.bn/search?q="),
  ("bo", "com.bo/search?q="), ("br", "com.br/search?q="), ("bs", "bs/search?q="),
  ("bt", "bt/search?q="), ("bw", "co.bw/search?q="), ("by", "by/search?q="),
  ("bz", "com.bz/search?q="), ("ca", "ca/search?q="), ("kh", "com.kh/search?q="),
  ("cc", "cc/search?q="), ("cd", "cd/search?q="), ("cf", "cf/search?q="),
  ("cat", "cat/search?q="), ("cg", "cg/search?q="), ("ch", "ch/search?q="),
  ("ci", "ci/search?q="), ("ck", "co.ck/search?q="), ("cl", "cl/search?q="),
  ("cm", "cm/search?q="), ("cn", "cn/search?q="), ("co", "com.co/search?q="),
  ("cr", "co.cr/search?q="), ("cu", "com.cu/search?q="), ("cv", "cv/search?q="),
  ("cy", "com.cy/search?q="), ("cz", "cz/search?q="), ("de", "de/search?q="),
  ("dj", "dj/search?q="), ("dk", "dk/search?q="), ("dm", "dm/search?q="),
  ("do", "com.do/search?q="), ("dz", "dz/search?q="), ("ec", "com.ec/search?q="),
  ("ee", "ee/search?q="), ("eg", "com.eg/search?q="), ("es", "es/search?q="),
  ("et", "com.et/search?q="), ("fi", "fi/search?q="), ("fj", "com.fj/search?q="),
  ("fm", "fm/search?q="), ("fr", "fr/search?q="), ("ga", "ga/search?q="),
  ("gb", "co.uk/search?q="), ("ge", "ge/search?q="), ("gf", "gf/search?q="),
  ("gg", "gg/search?q="), ("gh", "com.gh/search?q="), ("gi", "com.gi/search?q="),
  ("gl", "gl/search?q="), ("gm", "gm/search?q="), ("gp", "gp/search?q="),
  ("gr", "gr/search?q="), ("gt", "com.gt/search?q="), ("gy", "gy/search?q="),
  ("hk", "com.hk/search?q="), ("hn", "hn/search?q="), ("hr", "hr/search?q="),
  ("ht", "ht/search?q="), ("hu", "hu/search?q="), ("id", "co.id/search?q="),
  ("iq", "iq/search?q="), ("ie", "ie/search?q="), ("il", "co.il/search?q="),
  ("im", "im/search?q="), ("in", "co.in/search?q="), ("io", "io/search?q="),
  ("is", "is/search?q="), ("it", "it/search?q="), ("je", "je/search?q="),
  ("jm", "com.jm/search?q="), ("jo", "jo/search?q="), ("jp", "co.jp/search?q="),
  ("ke", "co.ke/search?q="), ("ki", "ki/search?q="), ("kg", "kg/search?q="),
  ("kr", "co.kr/search?q="), ("kw", "com.kw/search?q="), ("kz", "kz/search?q="),
  ("la", "la/search?q="), ("lb", "com.lb/search?q="), ("lc", "com.lc/search?q="),
  ("li", "li/search?q="), ("lk", "lk/search?q="), ("ls", "co.ls/search?q="),
  ("lt", "lt/search?q="), ("lu", "lu/search?q="), ("lv", "lv/search?q="),
  ("ly", "com.ly/search?q="), ("ma", "co.ma/search?q="), ("md", "md/search?q="),
  ("me", "me/search?q="), ("mg", "mg/search?q="), ("mk", "mk/search?q="),
  ("ml", "ml/search?q="), ("mm", "com.mm/search?q="), ("mn", "mn/search?q="),
  ("ms", "ms/search?q="), ("mt", "com.mt/search?q="), ("mu", "mu/search?q="),
  ("mv", "mv/search?q="), ("mw", "mw/search?q="), ("mx", "com.mx/search?q="),
  ("my", "com.my/search?q="), ("mz", "co.mz/search?q="), ("na", "com.na/search?q="),
  ("ne", "ne/search?q="), ("nf", "com.nf/search?q="), ("ng", "com.ng/search?q="),
  ("ni", "com.ni/search?q="), ("nl", "nl/search?q="), ("no", "no/search?q="),
  ("np", "com.np/search?q="), ("nr", "nr/search?q="), ("nu", "nu/search?q="),
  ("nz", "co.nz/search?q="), ("om", "com.om/search?q="), ("pa", "com.pa/search?q="),
  ("pe", "com.pe/search?q="), ("ph", "com.ph/search?q="), ("pk", "com.pk/search?q="),
  ("pl", "pl/search?q="), ("pg", "com.pg/search?q="), ("pn", "pn/search?q="),
  ("pr", "com.pr/search?q="), ("ps", "ps/search?q="), ("pt", "pt/search?q="),
  ("py", "com.py/search?q="), ("qa", "com.qa/search?q="), ("ro", "ro/search?q="),
  ("rs", "rs/search?q="), ("ru", "ru/search?q="), ("rw", "rw/search?q="),
  ("sa", "com.sa/search?q="), ("sb", "com.sb/search?q="), ("sc", "sc/search?q="),
  ("se", "se/search?q="), ("sg", "com.sg/search?q="), ("sh", "sh/search?q="),
  ("si", "si/search?q="), ("sk", "sk/search?q="), ("sl", "com.sl/search?q="),
  ("sn", "sn/search?q="), ("sm", "sm/search?q="), ("so", "so/search?q="),
  ("st", "st/search?q="), ("sv", "com.sv/search?q="), ("td", "td/search?q="),
  ("tg", "tg/search?q="), ("th", "co.th/search?q="), ("tj", "com.tj/search?q="),
  ("tk", "tk/search?q="), ("tl", "tl/search?q="), ("tm", "tm/search?q="),
  ("to", "to/search?q="), ("tn", "tn/search?q="), ("tr", "com.tr/search?q="),
  ("tt", "tt/search?q="), ("tw", "com.tw/search?q="), ("tz", "co.tz/search?q="),
  ("ua", "com.ua/search?q="), ("ug", "co.ug/search?q="), ("uk", "co.uk/search?q="),
  ("uy", "com.uy/search?q="), ("uz", "co.uz/search?q="), ("vc", "com.vc/search?q="),
  ("ve", "co.ve/search?q="), ("vg", "vg/search?q="), ("vi", "co.vi/search?q="),
  ("vn", "com.vn/search?q="), ("vu", "vu/search?q="), ("ws", "ws/search?q="),
  ("za", "co.za/search?q="), ("zm", "co.zm/search?q="), ("zw", "co.zw/search?q=")]

/-- Lookup in `GoogleDomains`, modelling Go's `val, ok := m[key]` (keys in
the map source are unique). -/
def googleDomain (cc : String) : Option String :=
  (GoogleDomains.find? (fun p => p.fst = cc)).map (fun p => p.snd)

/-- Translated from `src/search/search_website.go`: the `SearchOptions`
struct (fields as in the source; `Limit` and `Start` are Go ints). -/
structure SearchOptions where
  CountryCode : String
  LanguageCode : String
  Limit : Int
  Start : Int
  UserAgent : String
  OverLimit : Bool
  ProxyAddr : String

/-- UTF-8 encoding of one character as its byte values (each in 0..255),
matching how Go strings store text and how `net/url` escapes per byte. -/
def utf8Bytes (c : Char) : List Nat :=
  let n := c.toNat
  if n < 0x80 then [n]
  else if n < 0x800 then
    [0xC0 + n / 0x40, 0x80 + n % 0x40]
  else if n < 0x10000 then
    [0xE0 + n / 0x1000, 0x80 + n / 0x40 % 0x40, 0x80 + n % 0x40]
  else
    [0xF0 + n / 0x40000, 0x80 + n / 0x1000 % 0x40, 0x80 + n / 0x40 % 0x40,
      0x80 + n % 0x40]

/-- Upper-case hexadecimal digit for a value in 0..15, as in Go `net/url`
(`"0123456789ABCDEF"`). -/
def upperHexDigit (n : Nat) : Char :=
  "0123456789ABCDEF".data.getD n '0'

/-- Byte left unescaped by Go's `url.QueryEscape` (`shouldEscape` with
`encodeQueryComponent` returns false): ASCII alphanumerics and the
unreserved marks `-`, `_`, `.`, `~`. -/
def isUnreservedQueryByte (b : Nat) : Bool :=
  (65 ≤ b && b ≤ 90) || (97 ≤ b && b ≤ 122) || (48 ≤ b && b ≤ 57) ||
    b = 45 || b = 95 || b = 46 || b = 126

/-- Escapes one byte the way Go's `url.QueryEscape` does: unreserved bytes
stand for themselves, the space byte becomes `+`, every other byte becomes
percent plus two upper-case hex digits. -/
def escapeQueryByte (b : Nat) : String :=
  if isUnreservedQueryByte b then String.singleton (Char.ofNat b)
  else if b = 32 then "+"
  else
    "%" ++ String.singleton (upperHexDigit (b / 16)) ++
      String.singleton (upperHexDigit (b % 16))

/-- Go's `url.QueryEscape`: escapes the UTF-8 bytes of the string so it
can be placed inside a URL query component. -/
def queryEscape (s : String) : String :=
  String.join (((s.data.map utf8Bytes).flatten).map escapeQueryByte)

/-- Translated from `src/search/search_website.go` (`getSearchURL`): the
base is `stdGoogleBase` plus the domain mapped to `opts.CountryCode` when
present, else the "us" domain; the query-escaped search term, the language
code and the start rank are appended. -/
def getSearchURL (searchTerm : String) (opts : SearchOptions) : String :=
  let base := stdGoogleBase ++
    (match googleDomain opts.CountryCode with
     | some val => val
     | none => (googleDomain "us").getD "")
  base ++ queryEscape searchTerm ++ "&hl=" ++ opts.LanguageCode ++
    "&start=" ++ toString opts.Start

/-- Abstract Go `context.Context` values: the background context and any
other caller-supplied context, with a nil pointer modelled as `none` at
use sites. -/
inductive GoContext where
  | background
  | custom (id : Nat)
deriving DecidableEq, Repr

/-- Translated from `src/search/search_website.go` (`SearchGoogle`, first
statement): `if ctx == nil { ctx = context.Background() }` — the context
value actually used by the subsequent rate-limiter wait and HTTP request
is the argument when non-nil and the fresh background context
otherwise. -/
def searchGoogleEffectiveCtx (ctx : Option GoContext) : Option GoContext :=
  if ctx.isNone then some GoContext.background else ctx

/-- The class tokens `lang_from_class` scans, in scanning order: the pre
node's own tokens first, then those of its first child element with tag
"code" (none when there is no such child). -/
def preCodeTokens (preNode : HNode) : List String :=
  wsFields (attr preNode "class") ++
    (match preNode.children.find? (fun c =>
        c.type = NodeType.element && c.data = "code") with
     | some codeNode => wsFields (attr codeNode "class")
     | none => [])

/-- Sample table row with header cells "h1c" and "h2c", as in a one-header
two-data-row table. -/
def sampleHeaderRow : HNode :=
  HNode.mk .element "tr" []
    [HNode.mk .element "th" [] [HNode.mk .text "h1c" [] []],
     HNode.mk .element "th" [] [HNode.mk .text "h2c" [] []]]

/-- Sample first data row with cells "a" and "b". -/
def sampleDataRow1 : HNode :=
  HNode.mk .element "tr" []
    [HNode.mk .element "td" [] [HNode.mk .text "a" [] []],
     HNode.mk .element "td" [] [HNode.mk .text "b" [] []]]

/-- Sample second data row with cells "c" and "d". -/
def sampleDataRow2 : HNode :=
  HNode.mk .element "tr" []
    [HNode.mk .element "td" [] [HNode.mk .text "c" [] []],
     HNode.mk .element "td" [] [HNode.mk .text "d" [] []]]

/-- Helper lemma: scanning a concatenation of token lists for the first
`language-X` token tries the first list and falls back to the second. -/
theorem firstLangToken_append (xs ys : List String) :
    firstLangToken (xs ++ ys) =
      match firstLangToken xs with
      | some l => some l
      | none => firstLangToken ys := by
  induction xs with
  | nil => simp [firstLangToken]
  | cons tok toks ih =>
    simp only [List.cons_append, firstLangToken]
    cases h : langTokenSuffix tok with
    | some l => simp
    | none => simpa using ih

/-- Helper lemma: `chainHasTag` holds exactly when the node itself or some
member of its parent chain carries the tag. -/
theorem chainHasTag_iff (n : PNode) (t : String) :
    chainHasTag n t = true ↔ n.tag = t ∨ ∃ m ∈ parentChain n, m.tag = t := by
  induction n with
  | root tag => simp [chainHasTag, parentChain, PNode.tag]
  | child tag p ih =>
    simp only [chainHasTag, parentChain, PNode.tag, Bool.or_eq_true,
      decide_eq_true_eq, List.mem_cons, ih]
    constructor
    · rintro (h | h | ⟨m, hm, hmt⟩)
      · exact Or.inl h
      · exact Or.inr ⟨p, Or.inl rfl, h⟩
      · exact Or.inr ⟨m, Or.inr hm, hmt⟩
    · rintro (h | ⟨m, (rfl | hm), hmt⟩)
      · exact Or.inl h
      · exact Or.inr (Or.inl hmt)
      · exact Or.inr (Or.inr ⟨m, hm, hmt⟩)

/-- C1: walk on the element `<b>test</b>` with an Option carrying no
custom rule writes exactly `**test**` to the sink; with an Option whose
custom-rule map sends "b" to a rule that writes `*`, re-enters the default
walker on the same node and writes `*`, walk writes exactly `*test*` (the
re-entry renders the children without re-invoking the custom rule). -/
theorem C1_walk_custom_rule_override :
    walk (HNode.mk .element "b" [] [HNode.mk .text "test" [] []]) 0 false
        ⟨true, fun _ => none⟩ = "**test**" ∧
    walk (HNode.mk .element "b" [] [HNode.mk .text "test" [] []]) 0 false
        ⟨true, fun tag =>
          if tag = "b" then some (fun _ _ dflt => "*" ++ dflt () ++ "*")
          else none⟩ = "*test*" :=
  ⟨rfl, rfl⟩

/-- C2: `is_child_of(n, t)` is true iff some node on the parent chain
starting at n's parent has tag t; it is false for a nil node, false when no
ancestor matches even if n itself has the tag, and on the chain
div → span → p both `is_child_of(p, "div")` and `is_child_of(p, "span")`
hold while `is_child_of(span, "p")` and `is_child_of(p, "p")` do not. -/
theorem C2_isChildOf_ancestor_chain :
    (∀ (n : PNode) (t : String),
        isChildOf (some n) t = true ↔ ∃ m ∈ parentChain n, m.tag = t) ∧
    (∀ t : String, isChildOf none t = false) ∧
    isChildOf (some (PNode.child "p" (PNode.child "span" (PNode.root "div"))))
        "div" = true ∧
    isChildOf (some (PNode.child "p" (PNode.child "span" (PNode.root "div"))))
        "span" = true ∧
    isChildOf (some (PNode.child "span" (PNode.root "div"))) "p" = false ∧
    isChildOf (some (PNode.child "p" (PNode.child "span" (PNode.root "div"))))
        "p" = false := by
  refine ⟨?_, fun _ => rfl, rfl, rfl, rfl, rfl⟩
  intro n t
  cases n with
  | root tag => simp [isChildOf, parentChain]
  | child tag p => simp [isChildOf, parentChain, chainHasTag_iff, PNode.tag]

/-- C3: for every pre node, `lang_from_class` returns the suffix X of the
first `language-X` token among the whitespace-separated class tokens of
the pre node itself and then of its first child element with tag "code",
skipping non-matching tokens, and the empty string when no token matches;
class "language-golang" gives "golang", "other-class language-python"
gives "python", "other-class" gives "". -/
theorem C3_langFromClass_first_language_token :
    (∀ p : HNode, langFromClass p = (firstLangToken (preCodeTokens p)).getD "") ∧
    langFromClass (HNode.mk .element "pre" [("class", "language-golang")]
        [HNode.mk .element "code" [] []]) = "golang" ∧
    langFromClass (HNode.mk .element "pre"
        [("class", "other-class language-python")]
        [HNode.mk .element "code" [] []]) = "python" ∧
    langFromClass (HNode.mk .element "pre" [("class", "other-class")]
        [HNode.mk .element "code" [] []]) = "" ∧
    langFromClass (HNode.mk .element "pre" []
        [HNode.mk .element "code" [("class", "x language-rust y")] []]) = "rust" ∧
    langFromClass (HNode.mk .element "pre"
        [("class", "foo language-a language-b")] []) = "a" := by
  refine ⟨?_, rfl, rfl, rfl, rfl, rfl⟩
  intro p
  unfold langFromClass preCodeTokens
  rw [firstLangToken_append]
  cases h : firstLangToken (wsFields (attr p "class")) with
  | some l => simp [h]
  | none =>
    simp only [h]
    cases hc : p.children.find? (fun c =>
        c.type = NodeType.element && c.data = "code") with
    | some codeNode =>
      cases hl : firstLangToken (wsFields (attr codeNode "class")) <;>
        simp [hc, hl]
    | none => simp [hc, firstLangToken]

/-- C4: `has_class(n, c)` is true iff c occurs as a complete
whitespace-separated token of n's "class" attribute, with token splitting
handling arbitrary runs of whitespace; for class "class1 class2" it is
true for "class1" and "class2" and false for "class3". -/
theorem C4_hasClass_token_membership :
    (∀ (n : HNode) (c : String),
        hasClass n c = true ↔ c ∈ wsFields (attr n "class")) ∧
    hasClass (HNode.mk .element "div" [("class", "class1 class2")] [])
        "class1" = true ∧
    hasClass (HNode.mk .element "div" [("class", "class1 class2")] [])
        "class2" = true ∧
    hasClass (HNode.mk .element "div" [("class", "class1 class2")] [])
        "class3" = false ∧
    wsFields " a \t class1\n  b " = ["a", "class1", "b"] ∧
    hasClass (HNode.mk .element "div" [("class", " a \t class1\n  b ")] [])
        "class1" = true := by
  refine ⟨?_, rfl, rfl, rfl, rfl, rfl⟩
  intro n c
  simp [hasClass, List.elem_iff]

/-- C5: `attr(n, a)` is total and never fails — it returns the first value
recorded for attribute a when present, and the empty string when the
attribute is absent or the node has no attributes at all. -/
theorem C5_attr_total_default_empty :
    (∀ (n : HNode) (name : String),
        attr n name =
          ((n.attrList.find? (fun p => p.fst = name)).map
            (fun p => p.snd)).getD "") ∧
    (∀ (n : HNode) (name : String),
        n.attrList.find? (fun p => p.fst = name) = none → attr n name = "") ∧
    (∀ (t : NodeType) (d : String) (cs : List HNode) (name : String),
        attr (HNode.mk t d [] cs) name = "") ∧
    attr (HNode.mk .element "div" [("class", "myclass"), ("id", "myid")] [])
        "class" = "myclass" ∧
    attr (HNode.mk .element "div" [("class", "myclass"), ("id", "myid")] [])
        "id" = "myid" ∧
    attr (HNode.mk .element "div" [("class", "myclass"), ("id", "myid")] [])
        "style" = "" := by
  refine ⟨?_, ?_, ?_, rfl, rfl, rfl⟩
  · intro n name
    unfold attr
    cases n.attrList.find? (fun p => p.fst = name) <;> simp
  · intro n name h
    unfold attr
    rw [h]
  · intro t d cs name
    rfl

/-- Witness for C5: the theorem applied to a concrete node whose attribute
list lacks "style" — the absent attribute yields the empty string. -/
theorem C5_attr_witness :
    attr (HNode.mk .element "div" [("class", "myclass")] []) "style" = "" :=
  C5_attr_total_default_empty.2.1
    (HNode.mk .element "div" [("class", "myclass")] []) "style" rfl

/-- C6: for every img element, the rendered image target is the "src"
attribute value when the key is present, otherwise the "data-src" value;
with neither attribute an image tag with an empty target is still emitted
(never skipped, keeping the alt text visible), and the walker's target
choice coincides with the src/data-src fallback of `TraverseAndExtract`. -/
theorem C6_img_src_fallback :
    (∀ (a : List (String × String)) (cs : List HNode) (nest : Nat)
        (pre : Bool) (opt : MdOption),
        opt.customRulesMap "img" = none →
        walk (HNode.mk .element "img" a cs) nest pre opt =
          "![" ++ attr (HNode.mk .element "img" a cs) "alt" ++ "](" ++
            imgTarget (HNode.mk .element "img" a cs) ++ ")") ∧
    (∀ n : HNode,
        imgTarget n =
          if hasAttrKey n "src" then attr n "src" else attr n "data-src") ∧
    (∀ n : HNode, imgTarget n = traverseImgSrc n.attrList) ∧
    (∀ n : HNode, hasAttrKey n "src" = false →
        hasAttrKey n "data-src" = false → imgTarget n = "") ∧
    walk (HNode.mk .element "img" [] []) 0 false ⟨true, fun _ => none⟩ =
      "![]()" := by
  refine ⟨?_, fun _ => rfl, ?_, ?_, rfl⟩
  · intro a cs nest pre opt h
    simp [walk, h, headerLevel]
  · intro n
    unfold imgTarget hasAttrKey traverseImgSrc selAttr attr
    cases hs : n.attrList.find? (fun p => p.fst = "src") with
    | some pr => simp [hs]
    | none =>
      simp only [hs, Option.isSome_none, Bool.false_eq_true, if_false,
        Option.map_none]
      cases hd : n.attrList.find? (fun p => p.fst = "data-src") <;> simp [hd]
  · intro n h1 h2
    unfold hasAttrKey at h2
    unfold imgTarget
    rw [h1]
    simp only [Bool.false_eq_true, if_false]
    unfold attr
    cases hd : n.attrList.find? (fun a => a.fst = "data-src") with
    | some pr => rw [hd] at h2; simp at h2
    | none => simp [hd]

/-- Witness for C6: the theorem applied to a concrete img element carrying
only "alt" and "data-src" — the rendered target falls back to the lazy
"data-src" value. -/
theorem C6_img_witness :
    walk (HNode.mk .element "img" [("alt", "x"), ("data-src", "l.png")] []) 0
        false ⟨true, fun _ => none⟩ = "![x](l.png)" :=
  (C6_img_src_fallback.1 [("alt", "x"), ("data-src", "l.png")] [] 0 false
    ⟨true, fun _ => none⟩ rfl).trans rfl

/-- C7: a table whose children are one header `tr` row and two data `tr`
rows renders with exactly one header-separator row, placed immediately
after the rendered header row, each row being its `th`/`td` cell texts
pipe-joined. -/
theorem C7_table_single_separator :
    (∀ (a : List (String × String)) (t0 t1 t2 : HNode) (nest : Nat)
        (pre : Bool) (opt : MdOption),
        opt.customRulesMap "table" = none →
        isTrNode t0 = true → isTrNode t1 = true → isTrNode t2 = true →
        tableLines (HNode.mk .element "table" a [t0, t1, t2]) =
          [renderTableRow t0, "---", renderTableRow t1, renderTableRow t2] ∧
        walk (HNode.mk .element "table" a [t0, t1, t2]) nest pre opt =
          String.intercalate "\n"
            [renderTableRow t0, "---", renderTableRow t1, renderTableRow t2]
            ++ "\n") ∧
    (∀ (node : HNode) (r0 r1 r2 : String),
        tableLines node = [r0, "---", r1, r2] →
        r0 ≠ "---" → r1 ≠ "---" → r2 ≠ "---" →
        (tableLines node).count "---" = 1) ∧
    (∀ tr : HNode,
        renderTableRow tr =
          String.intercalate " | "
            ((tr.children.filter isCellNode).map textContent)) := by
  refine ⟨?_, ?_, fun _ => rfl⟩
  · intro a t0 t1 t2 nest pre opt h h0 h1 h2
    have hlines :
        tableLines (HNode.mk .element "table" a [t0, t1, t2]) =
          [renderTableRow t0, "---", renderTableRow t1, renderTableRow t2] := by
      unfold tableLines
      simp [HNode.children, List.filter_cons, h0, h1, h2]
    refine ⟨hlines, ?_⟩
    rw [show walk (HNode.mk .element "table" a [t0, t1, t2]) nest pre opt =
        String.intercalate "\n"
          (tableLines (HNode.mk .element "table" a [t0, t1, t2])) ++ "\n" by
      simp [walk, h, headerLevel]]
    rw [hlines]
  · intro node r0 r1 r2 hl h0 h1 h2
    rw [hl]
    simp [List.count_cons, h0, h1, h2]

/-- Witness for C7: the theorem applied to a concrete table with one
header row and two data rows — the output carries the single separator
line right after the header line. -/
theorem C7_table_witness :
    walk (HNode.mk .element "table" []
        [sampleHeaderRow, sampleDataRow1, sampleDataRow2]) 0 false
        ⟨true, fun _ => none⟩ = "h1c | h2c\n---\na | b\nc | d\n" ∧
    (tableLines (HNode.mk .element "table" []
        [sampleHeaderRow, sampleDataRow1, sampleDataRow2])).count "---" = 1 := by
  have h := C7_table_single_separator.1 [] sampleHeaderRow sampleDataRow1
    sampleDataRow2 0 false ⟨true, fun _ => none⟩ rfl rfl rfl rfl
  refine ⟨h.2.trans (by rfl), ?_⟩
  exact C7_table_single_separator.2.1 _ "h1c | h2c" "a | b" "c | d"
    (h.1.trans (by rfl)) (by decide) (by decide) (by decide)

/-- C8: conversion never fails on malformed or missing input — a nil or
empty tree converts to empty output, absent attributes yield empty
strings, absent children yield no output, and a nil node makes
`is_child_of` false; the conversion itself is a total function of the
input tree. -/
theorem C8_no_failure_on_malformed_input :
    (∀ opt : MdOption, convert none opt = "") ∧
    (∀ opt : MdOption, convert (some (HNode.mk .document "" [] [])) opt = "") ∧
    (∀ (t : NodeType) (d : String) (cs : List HNode) (name : String),
        attr (HNode.mk t d [] cs) name = "") ∧
    (∀ (nest : Nat) (pre : Bool),
        walk (HNode.mk .element "div" [] []) nest pre
          ⟨true, fun _ => none⟩ = "") ∧
    (∀ t : String, isChildOf none t = false) :=
  ⟨fun _ => rfl, fun _ => rfl, fun _ _ _ _ => rfl, fun _ _ => rfl,
    fun _ => rfl⟩

/-- C9: `getSearchURL` builds the URL from the Google domain mapped to
`opts.CountryCode` when that code is a key of `GoogleDomains`, and
otherwise falls back to the "us" domain, producing a URL starting with
"https://www.google.com/search?q="; the search term is always embedded
through URL query escaping. -/
theorem C9_getSearchURL_domain_fallback_escaping :
    (∀ (term : String) (opts : SearchOptions),
        getSearchURL term opts =
          stdGoogleBase ++
            (match googleDomain opts.CountryCode with
             | some val => val
             | none => (googleDomain "us").getD "") ++
            (queryEscape term ++ "&hl=" ++ opts.LanguageCode ++ "&start=" ++
              toString opts.Start)) ∧
    googleDomain "us" = some "com/search?q=" ∧
    (∀ (term : String) (opts : SearchOptions) (val : String),
        googleDomain opts.CountryCode = some val →
        getSearchURL term opts =
          "https://www.google." ++ val ++
            (queryEscape term ++ "&hl=" ++ opts.LanguageCode ++ "&start=" ++
              toString opts.Start)) ∧
    (∀ (term : String) (opts : SearchOptions),
        googleDomain opts.CountryCode = none →
        getSearchURL term opts =
          "https://www.google.com/search?q=" ++
            (queryEscape term ++ "&hl=" ++ opts.LanguageCode ++ "&start=" ++
              toString opts.Start)) := by
  refine ⟨?_, rfl, ?_, ?_⟩
  · intro term opts
    simp only [getSearchURL, String.append_assoc]
  · intro term opts val h
    simp only [getSearchURL, h, stdGoogleBase, String.append_assoc]
  · intro term opts h
    simp only [getSearchURL, h]
    rw [show stdGoogleBase ++ (googleDomain "us").getD "" =
      "https://www.google.com/search?q=" from rfl]
    simp only [String.append_assoc]

/-- Witness for C9: the theorem applied to the unmapped country code "zz"
and the term "a b" — the URL falls back to the "us" domain and the term is
escaped to "a+b". -/
theorem C9_getSearchURL_witness :
    getSearchURL "a b" ⟨"zz", "en", 0, 0, "", false, ""⟩ =
      "https://www.google.com/search?q=a+b&hl=en&start=0" :=
  (C9_getSearchURL_domain_fallback_escaping.2.2.2 "a b"
    ⟨"zz", "en", 0, 0, "", false, ""⟩ rfl).trans rfl

/-- C10: SearchGoogle substitutes a fresh background context for a nil
context argument before any use, so the context value reaching the
rate-limiter wait and the HTTP request is never nil. -/
theorem C10_nil_context_substituted :
    (∀ ctx : Option GoContext,
        (searchGoogleEffectiveCtx ctx).isSome = true) ∧
    searchGoogleEffectiveCtx none = some GoContext.background ∧
    (∀ c : GoContext, searchGoogleEffectiveCtx (some c) = some c) := by
  refine ⟨?_, rfl, fun _ => rfl⟩
  intro ctx
  cases ctx <;> rfl

end GoUtils
